import Mathlib

/-!
Shallow embedding of the Liberty Reach desktop core
(`src/apps/desktop/src-tauri/src/main.rs`).

The Rust source exposes three Tauri commands and a tray-menu event handler:

* `encrypt_message(message, key)` returns `Ok("encrypted:" ++ message)`;
  the key is never read.
* `decrypt_message(ciphertext, key)` returns
  `Ok(ciphertext.replace("encrypted:", ""))`; the key is never read.
* `greet(name)` formats a fixed greeting around the name.
* the tray handler matches on the menu-event id: `"show"` looks up the
  webview window named `"main"` and, when present, calls `show()` then
  `set_focus()`; `"quit"` calls `std::process::exit(0)`; every other id
  does nothing.

Boundary strings are modelled as `List Char`; the fallible commands return
`Except (List Char) (List Char)` mirroring Rust `Result<String, String>`.
The tray handler is modelled as a function from the window-lookup
environment and the event id to the list of external actions it issues,
in order.
-/

namespace LibertyReach

/-- The ten characters of the literal marker that `encrypt_message` places
in front of the message and that `decrypt_message` strips again. -/
def marker : List Char := ['e', 'n', 'c', 'r', 'y', 'p', 't', 'e', 'd', ':']

/-- Embedding of Rust `s.replace(pat, "")`: remove every leftmost,
non-overlapping occurrence of `pat` in a single left-to-right scan.
An empty pattern removes nothing, matching Rust replace with
an empty replacement string. -/
def removeAll (pat : List Char) (s : List Char) : List Char :=
  match s with
  | [] => []
  | c :: rest =>
    if h : pat ≠ [] ∧ pat.isPrefixOf (c :: rest) then
      removeAll pat (List.drop pat.length (c :: rest))
    else
      c :: removeAll pat rest
termination_by s.length
decreasing_by
  · have hp : 0 < pat.length := List.length_pos.mpr h.1
    simp only [List.length_drop, List.length_cons]
    omega
  · simp

/-- Whether `pat` occurs as a contiguous run inside `s` (the substring
test used to state where the stub round trip succeeds). -/
def occursIn (pat : List Char) (s : List Char) : Bool :=
  match s with
  | [] => pat.isEmpty
  | c :: rest => pat.isPrefixOf (c :: rest) || occursIn pat rest

/-- Embedding of the Tauri command `encrypt_message`: always succeeds,
returning the marker followed by the message; the key parameter is unused,
exactly as in the source. -/
def encrypt_message (message : List Char) (key : List Char) :
    Except (List Char) (List Char) :=
  Except.ok (marker ++ message)

/-- Embedding of the Tauri command `decrypt_message`: always succeeds,
returning the ciphertext with every occurrence of the marker removed; the
key parameter is unused, exactly as in the source. -/
def decrypt_message (ciphertext : List Char) (key : List Char) :
    Except (List Char) (List Char) :=
  Except.ok (removeAll marker ciphertext)

/-- The fixed text the `greet` command places before the name. -/
def greetingPre : List Char := ['H', 'e', 'l', 'l', 'o', ',', ' ']

/-- The fixed text the `greet` command places after the name. -/
def greetingSuf : List Char :=
  ['!', ' ', 'W', 'e', 'l', 'c', 'o', 'm', 'e', ' ', 't', 'o', ' ',
   'L', 'i', 'b', 'e', 'r', 't', 'y', ' ', 'R', 'e', 'a', 'c', 'h', '!']

/-- Embedding of the Tauri command `greet`. -/
def greet (name : List Char) : List Char :=
  greetingPre ++ name ++ greetingSuf

/-- An external action the tray-menu handler can issue: make a named
window visible, focus a named window, or terminate the process with an
exit code. -/
inductive TrayEffect where
  | windowShow : String → TrayEffect
  | windowSetFocus : String → TrayEffect
  | processExit : Nat → TrayEffect
deriving DecidableEq

/-- Embedding of the tray-menu event handler: given the window-lookup
environment (whether a window of a given name exists) and the menu-event
id, the list of external actions issued, in order. The id `"show"` makes
the `"main"` window visible then focuses it when the lookup finds it and
does nothing otherwise; `"quit"` terminates the process with code 0;
every other id does nothing. -/
def on_menu_event (getWindow : String → Bool) (eventId : String) :
    List TrayEffect :=
  if eventId = "show" then
    if getWindow "main" then
      [TrayEffect.windowShow "main", TrayEffect.windowSetFocus "main"]
    else
      []
  else if eventId = "quit" then
    [TrayEffect.processExit 0]
  else
    []

/-! ### Helper lemmas about `removeAll` -/

lemma removeAll_nil (pat : List Char) : removeAll pat [] = [] := by
  simp [removeAll]

lemma isPrefixOf_append_self (l t : List Char) :
    l.isPrefixOf (l ++ t) = true := by
  induction l with
  | nil => simp [List.isPrefixOf]
  | cons a as ih => simp [List.isPrefixOf, ih]

lemma removeAll_of_not_occurs (pat : List Char) :
    ∀ s : List Char, occursIn pat s = false → removeAll pat s = s := by
  intro s
  induction s with
  | nil => intro _; exact removeAll_nil pat
  | cons c rest ih =>
    intro h
    simp only [occursIn, Bool.or_eq_false_iff] at h
    rw [removeAll, dif_neg]
    · rw [ih h.2]
    · intro hc
      rw [h.1] at hc
      exact Bool.false_ne_true hc.2

lemma removeAll_append_self (pat s : List Char) (h : pat ≠ []) :
    removeAll pat (pat ++ s) = removeAll pat s := by
  cases pat with
  | nil => exact absurd rfl h
  | cons p ps =>
    show removeAll (p :: ps) (p :: (ps ++ s)) = removeAll (p :: ps) s
    rw [removeAll, dif_pos]
    · have hd : List.drop (p :: ps).length (p :: (ps ++ s)) = s := by
        simp only [List.length_cons, List.drop_succ_cons]
        exact List.drop_left ps s
      rw [hd]
    · exact ⟨List.cons_ne_nil p ps, isPrefixOf_append_self (p :: ps) s⟩

/-- Evaluating the composite of the two boundary commands: encrypt under
one key, then decrypt under a possibly different key. When the message
does not contain the marker, the round trip returns the message, whatever
the two keys are. -/
lemma decrypt_encrypt (M S1 S2 : List Char) (h : occursIn marker M = false) :
    (encrypt_message M S1).bind (fun e => decrypt_message e S2) =
      Except.ok M := by
  show Except.ok (removeAll marker (marker ++ M)) = Except.ok M
  rw [removeAll_append_self marker M (by decide), removeAll_of_not_occurs marker M h]

/-! ### Claims -/

/-- Claim C1, counterexample: the round trip through the boundary commands
does not return the original message when the message itself contains the
marker. With the message equal to the marker itself, encrypt-then-decrypt
returns the empty string, not the original message. -/
theorem roundtrip_marker_counterexample :
    (encrypt_message marker []).bind (fun e => decrypt_message e []) =
      Except.ok [] ∧
    ([] : List Char) ≠ marker := by
  constructor
  · show Except.ok (removeAll marker (marker ++ marker)) =
      Except.ok ([] : List Char)
    have h2 : removeAll marker marker = removeAll marker [] := by
      have := removeAll_append_self marker [] (by decide)
      rwa [List.append_nil] at this
    rw [removeAll_append_self marker marker (by decide), h2, removeAll_nil]
  · decide

/-- Claim C1, amended: for every message M that does not contain the byte
sequence of the marker as a substring and every key string S, decrypting
the result of encrypting M under S, again under S, returns Ok M. When M
does contain the marker, decryption also strips those occurrences and the
round trip returns a different message. -/
theorem roundtrip_ok_of_no_marker (M S : List Char)
    (h : occursIn marker M = false) :
    (encrypt_message M S).bind (fun e => decrypt_message e S) =
      Except.ok M :=
  decrypt_encrypt M S S h

/-- Witness for the amended claim C1 at a concrete message and key. -/
theorem roundtrip_ok_of_no_marker_witness :
    (encrypt_message ['a'] ['k']).bind (fun e => decrypt_message e ['k']) =
      Except.ok ['a'] :=
  roundtrip_ok_of_no_marker ['a'] ['k'] (by decide)

/-- Claim C2, demonstration of the code bug: decrypting an envelope with a
key different from the one used to encrypt succeeds and returns the
plaintext; no authentication-failure error is produced, because the
commands never read the key. -/
theorem wrong_key_decrypt_succeeds :
    (['x'] : List Char) ≠ ['y'] ∧
    (encrypt_message ['a'] ['x']).bind (fun e => decrypt_message e ['y']) =
      Except.ok ['a'] :=
  ⟨by decide, decrypt_encrypt ['a'] ['x'] ['y'] (by decide)⟩

/-- Claim C3, demonstration of the code bug: flipping one bit of the last
envelope byte (the letter a becomes c, which differ exactly in bit 1) is
accepted silently: decryption succeeds and returns a plaintext different
from the original message instead of failing with an authentication
error. -/
theorem tampered_envelope_accepted :
    encrypt_message ['a'] ['k'] = Except.ok (marker ++ ['a']) ∧
    Char.toNat 'c' = Nat.xor (Char.toNat 'a') 2 ∧
    decrypt_message (marker ++ ['c']) ['k'] = Except.ok ['c'] ∧
    (['c'] : List Char) ≠ ['a'] := by
  refine ⟨rfl, by decide, ?_, by decide⟩
  show Except.ok (removeAll marker (marker ++ ['c'])) = Except.ok ['c']
  rw [removeAll_append_self marker ['c'] (by decide),
    removeAll_of_not_occurs marker ['c'] (by decide)]

/-- Claim C4, demonstration of the code bug: with an empty key string both
boundary commands succeed; no EmptySecret error and no error string is
produced, because no key derivation exists in the code and the key is
never read. -/
theorem empty_key_commands_succeed :
    encrypt_message ['a'] [] = Except.ok (marker ++ ['a']) ∧
    decrypt_message (marker ++ ['a']) [] = Except.ok ['a'] := by
  refine ⟨rfl, ?_⟩
  show Except.ok (removeAll marker (marker ++ ['a'])) = Except.ok ['a']
  rw [removeAll_append_self marker ['a'] (by decide),
    removeAll_of_not_occurs marker ['a'] (by decide)]

/-- Claim C5, demonstration of the code bug: the envelope produced by
`encrypt_message` is fully determined by the message alone; there is no
nonce and no randomness, so every encryption call with the same inputs
returns the identical envelope rather than pairwise-distinct ones. -/
theorem encrypt_deterministic_eval :
    encrypt_message ['a'] ['k'] = Except.ok (marker ++ ['a']) ∧
    (∀ M K1 K2, encrypt_message M K1 = encrypt_message M K2) :=
  ⟨rfl, fun _ _ _ => rfl⟩

/-- Claim C6: on the menu-event id show, when the window named main
exists the handler issues exactly the two actions make-visible then
set-focus, in that order, on that window; when it does not exist the
handler issues no action at all. -/
theorem show_event_routing (getWindow : String → Bool) :
    (getWindow "main" = true →
      on_menu_event getWindow "show" =
        [TrayEffect.windowShow "main", TrayEffect.windowSetFocus "main"]) ∧
    (getWindow "main" = false →
      on_menu_event getWindow "show" = []) := by
  constructor <;> intro h <;> simp [on_menu_event, h]

/-- Witness for claim C6 in both window environments. -/
theorem show_event_routing_witness :
    on_menu_event (fun _ => true) "show" =
      [TrayEffect.windowShow "main", TrayEffect.windowSetFocus "main"] ∧
    on_menu_event (fun _ => false) "show" = [] :=
  ⟨(show_event_routing (fun _ => true)).1 rfl,
   (show_event_routing (fun _ => false)).2 rfl⟩

/-- Claim C7: the quit menu event immediately terminates the process
(its action list is exactly one process-exit with code 0), and it is the
only operation of the core that does: a process-exit action appears in
the handler output exactly for the id quit, whatever the window
environment, and the two boundary commands always return an Ok result
while greet always returns a non-empty greeting, so none of them ends
the process. -/
theorem quit_only_terminates (getWindow : String → Bool) (eventId : String) :
    on_menu_event getWindow "quit" = [TrayEffect.processExit 0] ∧
    ((∃ code, TrayEffect.processExit code ∈ on_menu_event getWindow eventId) ↔
      eventId = "quit") ∧
    (∀ M K, (encrypt_message M K).isOk = true) ∧
    (∀ C K, (decrypt_message C K).isOk = true) ∧
    (∀ name, greet name ≠ []) := by
  refine ⟨?_, ?_, fun _ _ => rfl, fun _ _ => rfl, ?_⟩
  · simp [on_menu_event]
  · constructor
    · rintro ⟨code, hmem⟩
      by_cases hs : eventId = "show"
      · subst hs
        rw [on_menu_event, if_pos rfl] at hmem
        cases hg : getWindow "main" <;> rw [hg] at hmem <;> simp at hmem
      · by_cases hq : eventId = "quit"
        · exact hq
        · rw [on_menu_event, if_neg hs, if_neg hq] at hmem
          simp at hmem
    · intro hq
      subst hq
      exact ⟨0, by simp [on_menu_event]⟩
  · intro name h
    simp [greet, greetingPre] at h

/-- Witness for claim C7 at a concrete window environment and event id. -/
theorem quit_only_terminates_witness :
    on_menu_event (fun _ => false) "quit" = [TrayEffect.processExit 0] :=
  (quit_only_terminates (fun _ => false) "quit").1

/-- Claim C8: for every message, ciphertext and key, both boundary
commands run to completion and return an Ok result; no input makes
either of them return an error, and the total embedding reflects that no
code path of either command can abort. -/
theorem commands_total (M C K : List Char) :
    (∃ r, encrypt_message M K = Except.ok r) ∧
    (∃ r, decrypt_message C K = Except.ok r) :=
  ⟨⟨marker ++ M, rfl⟩, ⟨removeAll marker C, rfl⟩⟩

/-- Witness for claim C8 at concrete inputs. -/
theorem commands_total_witness :
    (∃ r, encrypt_message ['a'] ['k'] = Except.ok r) ∧
    (∃ r, decrypt_message ['b'] ['k'] = Except.ok r) :=
  commands_total ['a'] ['b'] ['k']

/-- Claim C9: both boundary commands always return the Ok variant:
encryption returns the marker followed by the message, decryption
returns the ciphertext with every occurrence of the marker removed, and
neither command ever returns an error value. -/
theorem commands_always_ok (M C K : List Char) :
    encrypt_message M K = Except.ok (marker ++ M) ∧
    decrypt_message C K = Except.ok (removeAll marker C) ∧
    (∀ e, encrypt_message M K ≠ Except.error e) ∧
    (∀ e, decrypt_message C K ≠ Except.error e) :=
  ⟨rfl, rfl, fun _ h => Except.noConfusion h, fun _ h => Except.noConfusion h⟩

/-- Witness for claim C9 at concrete inputs. -/
theorem commands_always_ok_witness :
    encrypt_message ['a'] ['k'] = Except.ok (marker ++ ['a']) ∧
    decrypt_message ['b'] ['k'] = Except.ok (removeAll marker ['b']) ∧
    (∀ e, encrypt_message ['a'] ['k'] ≠ Except.error e) ∧
    (∀ e, decrypt_message ['b'] ['k'] ≠ Except.error e) :=
  commands_always_ok ['a'] ['b'] ['k']

/-- Claim C10: the key input has no influence on either boundary command:
two runs with the same message or ciphertext and arbitrary different keys
return identical outputs. -/
theorem key_noninterference (M C K1 K2 : List Char) :
    encrypt_message M K1 = encrypt_message M K2 ∧
    decrypt_message C K1 = decrypt_message C K2 :=
  ⟨rfl, rfl⟩

/-- Witness for claim C10 at concrete inputs. -/
theorem key_noninterference_witness :
    encrypt_message ['a'] ['x'] = encrypt_message ['a'] ['y'] ∧
    decrypt_message ['b'] ['x'] = decrypt_message ['b'] ['y'] :=
  key_noninterference ['a'] ['b'] ['x'] ['y']

end LibertyReach
